import Mathlib

/-!
Verification of the RedInk product-photo edit flow.

This file gives a shallow embedding of:

* the edit-session state machine (history list + cursor, capacity 10);
  the backend service (`backend/services/image_edit.py`, class
  `ImageEditService`) is not part of the source tree — only its API client
  (`src/frontend/src/api/edit.ts`) and the design document are — so the
  state machine is modelled from the spec;
* the mask-authoring surface `ImageEditor.vue` (image/mask canvases,
  brush painting, mask export at native resolution);
* the client-side handlers of `ProductPhotoEditView.vue`
  (`handleApplyEdit`, `handleUndo`, `handleRedo`);
* the product-image uploader `ProductImageUploader.vue` (`processFiles`,
  `removeImage`).

Display-space geometry of the canvas component is embedded over `ℚ`
(the browser computes it in floating point; none of the proved
properties depend on rounding).
-/

/- ===================== Edit session state machine ===================== -/

/-- Modelled from the spec: the server-resident edit session of
`ImageEditService` (`backend/services/image_edit.py` is not in the source
tree; only its client `src/frontend/src/api/edit.ts` and the design
document describe it).  It owns an ordered history of image versions,
index 0 being the source image, and a cursor denoting the current
version. -/
structure ServerEditSession (α : Type) where
  history : List α
  cursor : Nat
deriving DecidableEq, Repr

/-- `MAX_HISTORY_STEPS = 10` from the design document: at most 10 stored
history entries in total. -/
def MAX_HISTORY_STEPS : Nat := 10

/-- Modelled from the spec: `canUndo = cursor > 0`. -/
def ServerEditSession.canUndo {α : Type} (s : ServerEditSession α) : Bool :=
  decide (0 < s.cursor)

/-- Modelled from the spec: `canRedo = cursor < len(history) - 1`. -/
def ServerEditSession.canRedo {α : Type} (s : ServerEditSession α) : Bool :=
  decide (s.cursor + 1 < s.history.length)

/-- Modelled from the spec: session creation — `history = [sourceImage]`,
`cursor = 0`. -/
def createSession {α : Type} (img : α) : ServerEditSession α :=
  { history := [img], cursor := 0 }

/-- Modelled from the spec: `currentImage()` is the pure read of
`history[cursor]`. -/
def ServerEditSession.currentImage {α : Type} (s : ServerEditSession α) : Option α :=
  s.history.get? s.cursor

/-- Modelled from the spec: `apply(editedImage)` truncates the history to
`[0..cursor]`, appends the edited image and sets `cursor = len - 1`;
if this exceeds the capacity, the oldest entry is evicted and the cursor
shifted down by one. -/
def ServerEditSession.applyEdit {α : Type} (s : ServerEditSession α) (e : α) :
    ServerEditSession α :=
  if MAX_HISTORY_STEPS < (s.history.take (s.cursor + 1) ++ [e]).length then
    { history := (s.history.take (s.cursor + 1) ++ [e]).drop 1,
      cursor := (s.history.take (s.cursor + 1) ++ [e]).length - 2 }
  else
    { history := s.history.take (s.cursor + 1) ++ [e],
      cursor := (s.history.take (s.cursor + 1) ++ [e]).length - 1 }

/-- Modelled from the spec: the error taxonomy variant raised by `undo`/
`redo` when the corresponding guard fails. -/
inductive EditError where
  | IllegalTransition
deriving DecidableEq, Repr

/-- Modelled from the spec: `undo()` requires `canUndo`, decrements the
cursor by one, and fails with `IllegalTransition` when `!canUndo`. -/
def ServerEditSession.undo {α : Type} (s : ServerEditSession α) :
    Except EditError (ServerEditSession α) :=
  if s.canUndo then .ok { history := s.history, cursor := s.cursor - 1 }
  else .error .IllegalTransition

/-- Modelled from the spec: `redo()` requires `canRedo`, increments the
cursor by one, and fails with `IllegalTransition` when `!canRedo`. -/
def ServerEditSession.redo {α : Type} (s : ServerEditSession α) :
    Except EditError (ServerEditSession α) :=
  if s.canRedo then .ok { history := s.history, cursor := s.cursor + 1 }
  else .error .IllegalTransition

/-- One client-visible mutating operation on an open session. -/
inductive EditOp (α : Type) where
  | apply (e : α)
  | undo
  | redo

/-- Run one operation; a rejected `undo`/`redo` leaves the session
unchanged (the transition is all-or-nothing). -/
def ServerEditSession.step {α : Type} (s : ServerEditSession α) :
    EditOp α → ServerEditSession α
  | .apply e => s.applyEdit e
  | .undo =>
      match s.undo with
      | .ok s' => s'
      | .error _ => s
  | .redo =>
      match s.redo with
      | .ok s' => s'
      | .error _ => s

/-- The session reached from a fresh session on `img` by a sequence of
operations. -/
def runSession {α : Type} (img : α) (ops : List (EditOp α)) : ServerEditSession α :=
  ops.foldl ServerEditSession.step (createSession img)

/-- The session invariant: the cursor addresses a valid history index,
the history is never empty, and at most `MAX_HISTORY_STEPS` entries are
stored. -/
def SessionInv {α : Type} (s : ServerEditSession α) : Prop :=
  s.cursor < s.history.length ∧ 1 ≤ s.history.length ∧
    s.history.length ≤ MAX_HISTORY_STEPS

instance {α : Type} (s : ServerEditSession α) : Decidable (SessionInv s) := by
  unfold SessionInv
  infer_instance

/- ===================== Mask authoring surface ===================== -/

/-- State of the `ImageEditor.vue` component: loading/error flags, the
`hasMask` flag, the loaded image's native size, the display-space canvas
geometry, the painted brush arcs (display coordinates: centre and radius)
on the mask canvas, and the log of emitted `mask-change` events. -/
structure SurfaceState where
  loading : Bool
  loadError : Bool
  hasMask : Bool
  imageWidth : Nat
  imageHeight : Nat
  displayW : ℚ
  displayH : ℚ
  canvasScale : ℚ
  maskStrokes : List (ℚ × ℚ × ℚ)
  emitted : List Bool
deriving DecidableEq, Repr

/-- Component state right after `<script setup>` runs (refs initialised,
nothing loaded, nothing painted). -/
def initSurface : SurfaceState :=
  { loading := false, loadError := false, hasMask := false,
    imageWidth := 0, imageHeight := 0, displayW := 0, displayH := 0,
    canvasScale := 1, maskStrokes := [], emitted := [] }

/-- `setupCanvases(img)`: aspect-fit the image into the container
(`clientHeight || 600`), record the native size and the display→native
scale factor, size both canvases to the display size (which resets the
mask canvas bitmap) and clear the mask layer.  The ratio comparison
`imgRatio > containerRatio` is the cross-multiplied integer
comparison. -/
def SurfaceState.setupCanvases (st : SurfaceState) (imgW imgH cW cH : Nat) :
    SurfaceState :=
  let cH' : Nat := if cH = 0 then 600 else cH
  let dims : ℚ × ℚ :=
    if cW * imgH < imgW * cH' then
      ((cW : ℚ), (cW : ℚ) * (imgH : ℚ) / (imgW : ℚ))
    else
      ((cH' : ℚ) * (imgW : ℚ) / (imgH : ℚ), (cH' : ℚ))
  { st with imageWidth := imgW, imageHeight := imgH,
            displayW := dims.1, displayH := dims.2,
            canvasScale := (imgW : ℚ) / dims.1,
            maskStrokes := [] }

/-- `loadImage()` completing successfully: `loading` is raised and
dropped, `loadError` cleared, and `setupCanvases` runs with the decoded
image and the current container box. -/
def SurfaceState.loadImageOk (st : SurfaceState) (imgW imgH cW cH : Nat) :
    SurfaceState :=
  { ({ st with loading := true, loadError := false }).setupCanvases imgW imgH cW cH with
      loading := false }

/-- `loadImage()` failing (the `Image` fires `onerror`): the error
overlay state is entered; canvases are not touched. -/
def SurfaceState.loadImageFail (st : SurfaceState) : SurfaceState :=
  { st with loading := false, loadError := true }

/-- `drawPoint(x, y)`: paint a filled arc of radius `brushSize / 2` at
display coordinates `(x, y)`; on the first paint while `hasMask` is
false, set the flag and emit `mask-change true`. -/
def SurfaceState.drawPoint (st : SurfaceState) (x y brushSize : ℚ) : SurfaceState :=
  let st1 := { st with maskStrokes := st.maskStrokes ++ [(x, y, brushSize / 2)] }
  if st.hasMask then st1
  else { st1 with hasMask := true, emitted := st.emitted ++ [true] }

/-- `clearMask()`: clear the mask canvas, drop the flag and emit
`mask-change false`. -/
def SurfaceState.clearMask (st : SurfaceState) : SurfaceState :=
  { st with maskStrokes := [], hasMask := false, emitted := st.emitted ++ [false] }

/-- The canvas returned by `getMaskCanvas`: a bitmap of the given pixel
size carrying the (rescaled) painted arcs. -/
structure MaskCanvas where
  width : Nat
  height : Nat
  strokes : List (ℚ × ℚ × ℚ)
deriving DecidableEq, Repr

/-- The painted arcs rescaled from display resolution to the native image
resolution, as `ctx.drawImage(maskCanvas, 0, 0, maskW, maskH, 0, 0,
imageWidth, imageHeight)` does. -/
def SurfaceState.scaledStrokes (st : SurfaceState) : List (ℚ × ℚ × ℚ) :=
  st.maskStrokes.map fun p =>
    (p.1 * ((st.imageWidth : ℚ) / st.displayW),
     p.2.1 * ((st.imageHeight : ℚ) / st.displayH),
     p.2.2 * ((st.imageWidth : ℚ) / st.displayW))

/-- `getMaskCanvas()`: `null` when `hasMask` is false, otherwise a fresh
canvas of the image's native size onto which the display-resolution mask
canvas is drawn scaled up. -/
def SurfaceState.getMaskCanvas (st : SurfaceState) : Option MaskCanvas :=
  if st.hasMask = false then none
  else some { width := st.imageWidth, height := st.imageHeight,
              strokes := st.scaledStrokes }

/-- `getMaskDataUrl()`: PNG-encode the exported canvas (the encoding
itself is opaque; only `null`-ness and the canvas it encodes matter). -/
def SurfaceState.getMaskDataUrl (st : SurfaceState) : Option String :=
  st.getMaskCanvas.map fun c => "data:image/png;base64," ++ reprStr c

/-- Observable events driving the surface: a load attempt completing
(successfully, with the image's native size and the container box, or
failing) — triggered by mount, by the `imageUrl` watcher, by the
`ResizeObserver` or by the retry button — plus painting and clearing. -/
inductive SurfaceEv where
  | loadOk (imgW imgH cW cH : Nat)
  | loadFail
  | paint (x y brush : ℚ)
  | clear

def surfaceStep (st : SurfaceState) : SurfaceEv → SurfaceState
  | .loadOk iw ih cw ch => st.loadImageOk iw ih cw ch
  | .loadFail => st.loadImageFail
  | .paint x y b => st.drawPoint x y b
  | .clear => st.clearMask

def runSurface (evs : List SurfaceEv) : SurfaceState :=
  evs.foldl surfaceStep initSurface

/-- A concrete run: load a 100×80 image into a 50×40 container, paint
once, then reload the same image (as the `imageUrl` watcher or the
`ResizeObserver` does).  The painted pixels are gone but `hasMask` is
still `true`. -/
def paintThenReload : List SurfaceEv :=
  [.loadOk 100 80 50 40, .paint 10 10 30, .loadOk 100 80 50 40]

/- ===================== Edit view (client) ===================== -/

/-- The `EditSession` interface of `src/frontend/src/api/edit.ts`: the
session summary the backend returns with each response. -/
structure EditSession where
  id : String
  task_id : String
  can_undo : Bool
  can_redo : Bool
  history_count : Nat
  history_index : Nat
  created_at : String
deriving DecidableEq, Repr

/-- Client-side state of `ProductPhotoEditView.vue` relevant to the edit
handlers: the session id and cached session summary, the instruction
textarea, the mask flag mirrored from the editor, the `hasChanges` and
`isProcessing` flags, and the embedded `ImageEditor` component state. -/
structure ClientState where
  sessionId : Option String
  session : Option EditSession
  instruction : String
  hasMask : Bool
  hasChanges : Bool
  isProcessing : Bool
  editor : SurfaceState
deriving DecidableEq, Repr

/-- Resolution of one awaited API call: the backend answered
`success: true` (with an optional session summary), answered
`success: false`, or the request itself threw. -/
inductive OpOutcome where
  | ok (sess : Option EditSession)
  | failed (err : Option String)
  | threw
deriving DecidableEq, Repr

def OpOutcome.isFailure : OpOutcome → Bool
  | .ok _ => false
  | .failed _ => true
  | .threw => true

/-- Result of running one handler: the state left behind, whether the
API request was issued at all, and whether an error was surfaced
(`alert`). -/
structure HandleResult where
  state : ClientState
  requested : Bool
  alerted : Bool
deriving DecidableEq, Repr

/-- JavaScript `String.prototype.trim()`: strip leading and trailing
whitespace (modelled over the character list so it evaluates). -/
def strTrim (s : String) : String :=
  String.mk (((s.data.dropWhile Char.isWhitespace).reverse.dropWhile
    Char.isWhitespace).reverse)

/-- `canApplyEdit`: the instruction is non-empty after trimming. -/
def canApplyEdit (st : ClientState) : Bool :=
  decide (0 < (strTrim st.instruction).length)

/-- `canUndo` at the view: `session?.can_undo ?? false`. -/
def clientCanUndo (st : ClientState) : Bool :=
  match st.session with
  | some s => s.can_undo
  | none => false

/-- `canRedo` at the view: `session?.can_redo ?? false`. -/
def clientCanRedo (st : ClientState) : Bool :=
  match st.session with
  | some s => s.can_redo
  | none => false

/-- The view's `clearMask()`: clear the editor's mask and drop the view's
own `hasMask` flag. -/
def ClientState.viewClearMask (st : ClientState) : ClientState :=
  { st with editor := st.editor.clearMask, hasMask := false }

/-- `handleApplyEdit` as a function of the awaited `applyEdit` response:
guard on session id and `canApplyEdit`; on success adopt the returned
session summary, clear the instruction and the mask, and mark changes;
on failure or a thrown request, alert and leave everything (session
summary, instruction, mask) as it was.  `refreshSession()` — an extra
read-only fetch after success — is external and not part of the model. -/
def handleApplyEdit (st : ClientState) (resp : OpOutcome) : HandleResult :=
  if st.sessionId.isNone || !canApplyEdit st then
    { state := st, requested := false, alerted := false }
  else
    match resp with
    | .ok sess =>
        let st1 : ClientState :=
          { st with session := (match sess with | some s => some s | none => st.session) }
        let st2 : ClientState :=
          { st1.viewClearMask with
              instruction := "", hasChanges := true, isProcessing := false }
        { state := st2, requested := true, alerted := false }
    | .failed _ =>
        { state := { st with isProcessing := false }, requested := true, alerted := true }
    | .threw =>
        { state := { st with isProcessing := false }, requested := true, alerted := true }

/-- `handleUndo` as a function of the awaited `undoEdit` response. -/
def handleUndo (st : ClientState) (resp : OpOutcome) : HandleResult :=
  if st.sessionId.isNone || !clientCanUndo st then
    { state := st, requested := false, alerted := false }
  else
    match resp with
    | .ok sess =>
        { state := { st with
            session := (match sess with | some s => some s | none => st.session),
            isProcessing := false },
          requested := true, alerted := false }
    | .failed _ =>
        { state := { st with isProcessing := false }, requested := true, alerted := true }
    | .threw =>
        { state := { st with isProcessing := false }, requested := true, alerted := true }

/-- `handleRedo` as a function of the awaited `redoEdit` response. -/
def handleRedo (st : ClientState) (resp : OpOutcome) : HandleResult :=
  if st.sessionId.isNone || !clientCanRedo st then
    { state := st, requested := false, alerted := false }
  else
    match resp with
    | .ok sess =>
        { state := { st with
            session := (match sess with | some s => some s | none => st.session),
            isProcessing := false },
          requested := true, alerted := false }
    | .failed _ =>
        { state := { st with isProcessing := false }, requested := true, alerted := true }
    | .threw =>
        { state := { st with isProcessing := false }, requested := true, alerted := true }

/- ===================== Product image uploader ===================== -/

/-- A browser `File` as the uploader sees it: name, MIME type, byte
size. -/
structure UFile where
  name : String
  type : String
  size : Nat
deriving DecidableEq, Repr

/-- `ACCEPTED_FORMATS` from `ProductImageUploader.vue`. -/
def ACCEPTED_FORMATS : List String := ["image/png", "image/jpeg", "image/webp"]

/-- The default of the `maxImages` prop. -/
def defaultMaxImages : Nat := 10

/-- A file passes both validations of `processFiles`: accepted MIME type
and size at most 10 MB. -/
def validFile (f : UFile) : Bool :=
  ACCEPTED_FORMATS.contains f.type && decide (f.size ≤ 10 * 1024 * 1024)

/-- The error messages the uploader can set/emit (the Chinese message
text is abstracted to its kind plus the offending file name). -/
inductive UploadErrKind where
  | tooMany
  | badFormat (name : String)
  | tooLarge (name : String)
  | truncated
deriving DecidableEq, Repr

/-- Uploader component state: the `maxImages` prop, the stored images
(only the `File` matters here), the `error` ref, and the log of `error`
events emitted. -/
structure UploaderState where
  maxImages : Nat
  images : List UFile
  error : Option UploadErrKind
  errorEvents : List UploadErrKind
deriving DecidableEq, Repr

/-- The `for (const file of filesToAdd)` validation loop of
`processFiles`: skip files with an unsupported format or over 10 MB,
setting and emitting an error for each; collect the valid ones in
order. -/
def validateFiles : UploaderState → List UFile → List UFile × UploaderState
  | st, [] => ([], st)
  | st, f :: rest =>
      if (ACCEPTED_FORMATS.contains f.type) = false then
        validateFiles
          { st with error := some (.badFormat f.name),
                    errorEvents := st.errorEvents ++ [.badFormat f.name] } rest
      else if 10 * 1024 * 1024 < f.size then
        validateFiles
          { st with error := some (.tooLarge f.name),
                    errorEvents := st.errorEvents ++ [.tooLarge f.name] } rest
      else
        (f :: (validateFiles st rest).1, (validateFiles st rest).2)

/-- `processFiles(fileList)`: clear the error; reject outright when no
capacity remains; otherwise keep at most the remaining-capacity prefix,
validate it, append the valid files, and report when the input was
truncated. -/
def processFiles (st0 : UploaderState) (fileList : List UFile) : UploaderState :=
  let st := { st0 with error := none }
  let remaining : Int := (st.maxImages : Int) - (st.images.length : Int)
  if remaining ≤ 0 then
    { st with error := some .tooMany, errorEvents := st.errorEvents ++ [.tooMany] }
  else
    let vr := validateFiles st (fileList.take remaining.toNat)
    if vr.1 = [] then vr.2
    else
      let st2 := { vr.2 with images := vr.2.images ++ vr.1 }
      if remaining < (fileList.length : Int) then
        { st2 with error := some .truncated,
                   errorEvents := st2.errorEvents ++ [.truncated] }
      else st2

/-- `removeImage(index)`: drop the image at `index` when it exists, and
clear the error ref either way. -/
def removeImage (st : UploaderState) (index : Nat) : UploaderState :=
  if index < st.images.length then
    { st with images := st.images.eraseIdx index, error := none }
  else
    { st with error := none }

/-- A user-visible interaction with the uploader: adding files (file
picker or drop) or removing one. -/
inductive UploadOp where
  | add (files : List UFile)
  | remove (index : Nat)

def uploaderStep (st : UploaderState) : UploadOp → UploaderState
  | .add fs => processFiles st fs
  | .remove i => removeImage st i

def initUploader (m : Nat) : UploaderState :=
  { maxImages := m, images := [], error := none, errorEvents := [] }

def runUploader (m : Nat) (ops : List UploadOp) : UploaderState :=
  ops.foldl uploaderStep (initUploader m)

/-- The uploader's stored-list invariant: never more than `maxImages`
entries, and every stored file passed both validations. -/
def UploaderInv (st : UploaderState) : Prop :=
  st.images.length ≤ st.maxImages ∧ ∀ f ∈ st.images, validFile f = true

/- ===================== Concrete example states ===================== -/

/-- A concrete session summary, as `createEditSession` would return. -/
def sessEx : EditSession :=
  { id := "sess-1", task_id := "task-1", can_undo := false, can_redo := false,
    history_count := 1, history_index := 0, created_at := "2026-01-01" }

/-- A client state ready to apply an edit (open session, non-blank
instruction). -/
def clientReady : ClientState :=
  { sessionId := some "sess-1", session := some sessEx,
    instruction := "make it brighter", hasMask := false, hasChanges := false,
    isProcessing := false, editor := initSurface }

/-- A client state whose instruction is whitespace only. -/
def clientBlank : ClientState :=
  { sessionId := some "sess-1", session := some sessEx, instruction := "   ",
    hasMask := false, hasChanges := false, isProcessing := false,
    editor := initSurface }

/-- A client state with no cached session summary (`canUndo`/`canRedo`
both read as `false`). -/
def clientNoSess : ClientState :=
  { sessionId := some "sess-1", session := none, instruction := "x",
    hasMask := false, hasChanges := false, isProcessing := false,
    editor := initSurface }

/-- A valid PNG file and an invalid (wrong MIME type) file. -/
def fPng : UFile := { name := "a.png", type := "image/png", size := 5000 }

def fTxt : UFile := { name := "a.txt", type := "text/plain", size := 5000 }

/-- A concrete uploader interaction: add two files, remove the first. -/
def uploadOpsEx : List UploadOp := [.add [fPng, fTxt], .remove 0]

/- ===================== Theorems ===================== -/

theorem createSession_inv {α : Type} (img : α) : SessionInv (createSession img) := by
  refine ⟨?_, ?_, ?_⟩ <;> simp [createSession, MAX_HISTORY_STEPS]

theorem applyEdit_inv {α : Type} (s : ServerEditSession α) (e : α)
    (h : SessionInv s) : SessionInv (s.applyEdit e) := by
  obtain ⟨h1, h2, h3⟩ := h
  have ht : (s.history.take (s.cursor + 1)).length = s.cursor + 1 := by
    rw [List.length_take]; omega
  unfold ServerEditSession.applyEdit SessionInv
  split <;>
    simp only [List.length_drop, List.length_append, ht, List.length_singleton,
      MAX_HISTORY_STEPS] at * <;>
    omega

theorem step_inv {α : Type} (s : ServerEditSession α) (op : EditOp α)
    (h : SessionInv s) : SessionInv (s.step op) := by
  obtain ⟨h1, h2, h3⟩ := h
  cases op with
  | apply e => exact applyEdit_inv s e ⟨h1, h2, h3⟩
  | undo =>
      unfold ServerEditSession.step ServerEditSession.undo ServerEditSession.canUndo
      by_cases hc : 0 < s.cursor <;> simp [hc, SessionInv] <;> omega
  | redo =>
      unfold ServerEditSession.step ServerEditSession.redo ServerEditSession.canRedo
      by_cases hc : s.cursor + 1 < s.history.length <;>
        simp [hc, SessionInv] <;> omega

theorem foldl_step_inv {α : Type} (ops : List (EditOp α)) (s : ServerEditSession α)
    (h : SessionInv s) : SessionInv (ops.foldl ServerEditSession.step s) := by
  induction ops generalizing s with
  | nil => exact h
  | cons op rest ih => exact ih _ (step_inv s op h)

/-- C1: every reachable edit-session state satisfies
`0 ≤ cursor < len(history)`, `len(history) ≥ 1` and
`len(history) ≤ 10`, and each of `apply`/`undo`/`redo` preserves this
invariant. -/
theorem session_invariant {α : Type} (img : α) (ops : List (EditOp α))
    (s : ServerEditSession α) (op : EditOp α) (h : SessionInv s) :
    SessionInv (runSession img ops) ∧ SessionInv (s.step op) :=
  ⟨foldl_step_inv ops (createSession img) (createSession_inv img), step_inv s op h⟩

theorem session_invariant_witness :
    SessionInv (runSession (0 : Nat) [EditOp.apply 1, EditOp.undo, EditOp.redo]) ∧
    SessionInv (ServerEditSession.step { history := [5, 6], cursor := 1 }
      (EditOp.apply 7)) :=
  session_invariant 0 [EditOp.apply 1, EditOp.undo, EditOp.redo]
    { history := [5, 6], cursor := 1 } (EditOp.apply 7) (by decide)

/-- C2: on an open session, `apply(e)` truncates the history to
`[0..cursor]`, appends `e`, and sets the cursor to the last index
(evicting the oldest entry and shifting the cursor down by one when the
capacity of 10 would be exceeded); immediately after `apply`, `canRedo`
is false and the current image is `e`.  In particular, applying `3` to
`history = [0,1,2]`, `cursor = 0` yields `history = [0,3]`,
`cursor = 1`. -/
theorem applyEdit_contract {α : Type} (s : ServerEditSession α) (e : α)
    (h : SessionInv s) :
    (s.applyEdit e).canRedo = false ∧
    (s.applyEdit e).cursor = (s.applyEdit e).history.length - 1 ∧
    (s.applyEdit e).currentImage = some e ∧
    (s.applyEdit e).history =
      (if s.cursor + 2 ≤ MAX_HISTORY_STEPS then s.history.take (s.cursor + 1) ++ [e]
       else (s.history.take (s.cursor + 1) ++ [e]).drop 1) ∧
    ServerEditSession.applyEdit { history := [0, 1, 2], cursor := 0 } (3 : Nat) =
      { history := [0, 3], cursor := 1 } := by
  obtain ⟨h1, h2, h3⟩ := h
  have ht : (s.history.take (s.cursor + 1)).length = s.cursor + 1 := by
    rw [List.length_take]; omega
  have hlen : (s.history.take (s.cursor + 1) ++ [e]).length = s.cursor + 2 := by
    simp [ht]
  refine ⟨?_, ?_, ?_, ?_, by decide⟩
  · unfold ServerEditSession.applyEdit ServerEditSession.canRedo
    split <;>
      simp only [hlen, List.length_drop, decide_eq_false_iff_not, not_lt,
        MAX_HISTORY_STEPS] at * <;>
      omega
  · unfold ServerEditSession.applyEdit
    split <;> simp only [hlen, List.length_drop] <;> omega
  · unfold ServerEditSession.applyEdit ServerEditSession.currentImage
    split <;> simp only [hlen, List.length_drop]
    · rw [List.get?_drop]
      have : 1 + (s.cursor + 2 - 2) = s.cursor + 1 := by omega
      rw [this]
      rw [List.get?_append_right (by omega)]
      simp [ht]
    · rw [List.get?_append_right (by omega)]
      simp [ht]
  · unfold ServerEditSession.applyEdit
    split <;> rename_i hcond <;> rw [hlen] at hcond
    · rw [if_neg (by simp [MAX_HISTORY_STEPS] at *; omega)]
    · rw [if_pos (by simp [MAX_HISTORY_STEPS] at *; omega)]

theorem applyEdit_contract_witness :
    SessionInv ({ history := [0, 1, 2], cursor := 0 } : ServerEditSession Nat) ∧
    (({ history := [0, 1, 2], cursor := 0 } : ServerEditSession Nat).applyEdit 3).canRedo
      = false :=
  ⟨by decide,
   (applyEdit_contract { history := [0, 1, 2], cursor := 0 } 3 (by decide)).1⟩

/-- C4: when the external edit call fails (the response reports failure
or the request throws), `handleApplyEdit` commits nothing: the cached
session summary (hence `can_undo`, `can_redo`, `history_count`,
`history_index`), the instruction text and the drawn mask keep their
pre-call values, and whenever the request was actually issued the
failure is surfaced via `alert` (it is never retried: one invocation
issues at most the one request). -/
theorem handleApplyEdit_failure (st : ClientState) (resp : OpOutcome)
    (hf : resp.isFailure = true) :
    (handleApplyEdit st resp).state.session = st.session ∧
    (handleApplyEdit st resp).state.instruction = st.instruction ∧
    (handleApplyEdit st resp).state.hasMask = st.hasMask ∧
    (handleApplyEdit st resp).state.editor = st.editor ∧
    (handleApplyEdit st resp).state.hasChanges = st.hasChanges ∧
    ((handleApplyEdit st resp).requested = true →
      (handleApplyEdit st resp).alerted = true) := by
  cases resp with
  | ok sess => simp [OpOutcome.isFailure] at hf
  | failed err => unfold handleApplyEdit; split <;> simp
  | threw => unfold handleApplyEdit; split <;> simp

theorem handleApplyEdit_failure_witness :
    (handleApplyEdit clientReady (OpOutcome.failed (some "boom"))).state.session
        = clientReady.session ∧
    (handleApplyEdit clientReady (OpOutcome.failed (some "boom"))).state.instruction
        = clientReady.instruction ∧
    (handleApplyEdit clientReady (OpOutcome.failed (some "boom"))).state.editor
        = clientReady.editor :=
  have h := handleApplyEdit_failure clientReady (OpOutcome.failed (some "boom")) rfl
  ⟨h.1, h.2.1, h.2.2.2.1⟩

/-- C5: when the instruction is empty after trimming, `handleApplyEdit`
issues no request, changes no state and surfaces nothing — the guard
`canApplyEdit` is false and the handler returns before doing
anything. -/
theorem handleApplyEdit_blank (st : ClientState) (resp : OpOutcome)
    (h : strTrim st.instruction = "") :
    handleApplyEdit st resp = { state := st, requested := false, alerted := false } := by
  have hc : canApplyEdit st = false := by
    unfold canApplyEdit
    rw [h]
    decide
  unfold handleApplyEdit
  rw [hc]
  simp

theorem handleApplyEdit_blank_witness :
    handleApplyEdit clientBlank OpOutcome.threw
      = { state := clientBlank, requested := false, alerted := false } :=
  handleApplyEdit_blank clientBlank OpOutcome.threw (by decide)

/-- C6: server side, `undo()`/`redo()` require `canUndo`/`canRedo` and
fail with `IllegalTransition` exactly when the guard is false (decrementing
resp. incrementing the cursor when it is true); client side, `handleUndo`
(resp. `handleRedo`) issues no request and changes no state when `canUndo`
(resp. `canRedo`) is false. -/
theorem undo_redo_guards {α : Type} (s : ServerEditSession α) (st : ClientState)
    (resp : OpOutcome) :
    (s.canUndo = false → s.undo = Except.error EditError.IllegalTransition) ∧
    (s.canRedo = false → s.redo = Except.error EditError.IllegalTransition) ∧
    (s.canUndo = true →
      s.undo = Except.ok { history := s.history, cursor := s.cursor - 1 }) ∧
    (s.canRedo = true →
      s.redo = Except.ok { history := s.history, cursor := s.cursor + 1 }) ∧
    (clientCanUndo st = false →
      handleUndo st resp = { state := st, requested := false, alerted := false }) ∧
    (clientCanRedo st = false →
      handleRedo st resp = { state := st, requested := false, alerted := false }) := by
  refine ⟨?_, ?_, ?_, ?_, ?_, ?_⟩ <;> intro h
  · unfold ServerEditSession.undo; rw [h]; simp
  · unfold ServerEditSession.redo; rw [h]; simp
  · unfold ServerEditSession.undo; rw [h]; simp
  · unfold ServerEditSession.redo; rw [h]; simp
  · unfold handleUndo; rw [h]; simp
  · unfold handleRedo; rw [h]; simp

/-- C3, counterexample: it is not the case that the export is `null`
exactly when nothing has been painted since the last `clear()`/load.
After painting and then reloading (the `imageUrl` watcher / resize
path), the mask canvas is blank — nothing has been painted since that
load — yet `getMaskCanvas` returns a (blank) canvas, because the
`hasMask` flag is not reset by a load. -/
theorem getMaskCanvas_null_cex :
    ¬ (∀ evs : List SurfaceEv,
        (SurfaceState.getMaskCanvas (runSurface evs) = none ↔
          (runSurface evs).maskStrokes = [])) :=
  fun h => absurd ((h paintThenReload).mpr (by decide)) (by decide)

/-- C3, amended: `getMaskCanvas`/`getMaskDataUrl` return `null` iff the
`hasMask` flag is false — the flag is raised by the first paint and
cleared only by `clear()`, not by an image load — and every non-`null`
export is a bitmap whose pixel size equals the loaded image's native
width and height, holding the display-resolution mask scaled up to
native resolution. -/
theorem getMaskCanvas_contract (st : SurfaceState) :
    (st.getMaskCanvas = none ↔ st.hasMask = false) ∧
    (∀ c : MaskCanvas, st.getMaskCanvas = some c →
      c.width = st.imageWidth ∧ c.height = st.imageHeight ∧
        c.strokes = st.scaledStrokes) ∧
    (st.getMaskDataUrl = none ↔ st.getMaskCanvas = none) := by
  cases hm : st.hasMask <;>
    simp [SurfaceState.getMaskCanvas, SurfaceState.getMaskDataUrl, hm]

theorem getMaskCanvas_contract_witness :
    MaskCanvas.width { width := 100, height := 80, strokes := [] } =
        (runSurface paintThenReload).imageWidth ∧
    MaskCanvas.height { width := 100, height := 80, strokes := [] } =
        (runSurface paintThenReload).imageHeight ∧
    MaskCanvas.strokes { width := 100, height := 80, strokes := [] } =
        (runSurface paintThenReload).scaledStrokes :=
  (getMaskCanvas_contract (runSurface paintThenReload)).2.1
    { width := 100, height := 80, strokes := [] } (by decide)

/-- C7, counterexample: a viewport resize (the `ResizeObserver` fires
`loadImage` again) does not preserve the painted mask content — it
clears the mask canvas, so the accumulated mask is lost rather than
re-mapped. -/
theorem resize_preserves_mask_cex :
    ¬ (∀ (st : SurfaceState) (iw ih cw ch : Nat),
        (st.loadImageOk iw ih cw ch).maskStrokes = st.maskStrokes) :=
  fun h =>
    absurd (h (runSurface [.loadOk 100 80 50 40, .paint 10 10 30]) 100 80 25 20)
      (by decide)

/-- C7, amended: on a viewport resize the surface re-fits and re-derives
the display geometry and the display-to-native scale factor from the
reloaded image, but it clears the painted mask content (while leaving
the `hasMask` flag untouched); the mask content is not preserved across
the resize. -/
theorem resize_refit_clears_mask (st : SurfaceState) (iw ih cw ch : Nat) :
    (st.loadImageOk iw ih cw ch).maskStrokes = [] ∧
    (st.loadImageOk iw ih cw ch).hasMask = st.hasMask ∧
    (st.loadImageOk iw ih cw ch).imageWidth = iw ∧
    (st.loadImageOk iw ih cw ch).imageHeight = ih ∧
    (st.loadImageOk iw ih cw ch).canvasScale =
      (iw : ℚ) / (st.loadImageOk iw ih cw ch).displayW :=
  ⟨rfl, rfl, rfl, rfl, rfl⟩

/-- C8, counterexample: it is not the case that the first paint after a
`clear()`/load emits `mask-change true`.  After painting and reloading,
the mask canvas is blank (nothing painted since that load), yet the next
paint emits nothing, because the `hasMask` flag survived the load. -/
theorem paint_emits_cex :
    ¬ (∀ (evs : List SurfaceEv) (x y b : ℚ),
        (runSurface evs).maskStrokes = [] →
        ((runSurface evs).drawPoint x y b).emitted
          = (runSurface evs).emitted ++ [true]) :=
  fun h => absurd (h paintThenReload 1 1 30 (by decide)) (by decide)

/-- C8, amended: a paint emits `mask-change true` precisely when the
`hasMask` flag is still false (i.e. on the first paint since the last
`clear()` — or since component start — image loads do not reset the
flag); every paint leaves the flag true, so a second paint never emits;
`clear()` drops the flag and emits `mask-change false`. -/
theorem paint_emits_once (st : SurfaceState) (x y b u v w : ℚ)
    (iw ih cw ch : Nat) :
    ((st.drawPoint x y b).emitted
        = if st.hasMask then st.emitted else st.emitted ++ [true]) ∧
    (st.drawPoint x y b).hasMask = true ∧
    ((st.drawPoint x y b).drawPoint u v w).emitted = (st.drawPoint x y b).emitted ∧
    st.clearMask.hasMask = false ∧
    st.clearMask.emitted = st.emitted ++ [false] ∧
    (st.loadImageOk iw ih cw ch).hasMask = st.hasMask := by
  cases hm : st.hasMask <;>
    simp [SurfaceState.drawPoint, SurfaceState.clearMask, SurfaceState.loadImageOk,
      SurfaceState.setupCanvases, hm]

/-- C9: a completed reload (triggered by a changed `imageUrl`) resets any
in-progress mask pixels and clears the error state; a failed load enters
the retryable error state (`loadError` raised, spinner dropped) instead,
and a subsequent retry that succeeds leaves the error state and sets the
canvases up afresh. -/
theorem load_error_contract (st : SurfaceState) (iw ih cw ch : Nat) :
    (st.loadImageOk iw ih cw ch).maskStrokes = [] ∧
    (st.loadImageOk iw ih cw ch).loadError = false ∧
    (st.loadImageOk iw ih cw ch).loading = false ∧
    st.loadImageFail.loadError = true ∧
    st.loadImageFail.loading = false ∧
    (st.loadImageFail.loadImageOk iw ih cw ch).loadError = false ∧
    (st.loadImageFail.loadImageOk iw ih cw ch).maskStrokes = [] :=
  ⟨rfl, rfl, rfl, rfl, rfl, rfl, rfl⟩

theorem undo_redo_guards_witness :
    (createSession (7 : Nat)).undo = Except.error EditError.IllegalTransition ∧
    handleUndo clientNoSess OpOutcome.threw
      = { state := clientNoSess, requested := false, alerted := false } ∧
    handleRedo clientNoSess OpOutcome.threw
      = { state := clientNoSess, requested := false, alerted := false } :=
  ⟨(undo_redo_guards (createSession 7) clientNoSess OpOutcome.threw).1 rfl,
   (undo_redo_guards (createSession 7) clientNoSess OpOutcome.threw).2.2.2.2.1 rfl,
   (undo_redo_guards (createSession 7) clientNoSess OpOutcome.threw).2.2.2.2.2 rfl⟩

theorem validateFiles_spec (fs : List UFile) (st : UploaderState) :
    (validateFiles st fs).1 = fs.filter validFile ∧
    (validateFiles st fs).2.images = st.images ∧
    (validateFiles st fs).2.maxImages = st.maxImages ∧
    (validateFiles st fs).2.errorEvents.length =
      st.errorEvents.length + (fs.filter fun f => !validFile f).length := by
  induction fs generalizing st with
  | nil => simp [validateFiles]
  | cons f rest ih =>
    simp only [validateFiles]
    by_cases h1 : ACCEPTED_FORMATS.contains f.type = false
    · have hv : validFile f = false := by
        simp only [validFile, h1, Bool.false_and]
      rw [if_pos h1]
      obtain ⟨e1, e2, e3, e4⟩ := ih { st with error := some (UploadErrKind.badFormat f.name), errorEvents := st.errorEvents ++ [UploadErrKind.badFormat f.name] }
      refine ⟨by rw [e1]; simp [List.filter_cons, hv], e2, e3, ?_⟩
      rw [e4]; simp [List.filter_cons, hv]; omega
    · rw [if_neg h1]
      by_cases h2 : 10 * 1024 * 1024 < f.size
      · have hv : validFile f = false := by
          have hs : decide (f.size ≤ 10 * 1024 * 1024) = false := by
            simp; omega
          simp only [validFile, hs, Bool.and_false]
        rw [if_pos h2]
        obtain ⟨e1, e2, e3, e4⟩ := ih { st with error := some (UploadErrKind.tooLarge f.name), errorEvents := st.errorEvents ++ [UploadErrKind.tooLarge f.name] }
        refine ⟨by rw [e1]; simp [List.filter_cons, hv], e2, e3, ?_⟩
        rw [e4]; simp [List.filter_cons, hv]; omega
      · have hv : validFile f = true := by
          have hc : ACCEPTED_FORMATS.contains f.type = true := by
            revert h1; cases ACCEPTED_FORMATS.contains f.type <;> simp
          have hs : decide (f.size ≤ 10 * 1024 * 1024) = true := by
            simp; omega
          simp only [validFile, hc, hs, Bool.and_self]
        rw [if_neg h2]
        obtain ⟨e1, e2, e3, e4⟩ := ih st
        refine ⟨by simp [List.filter_cons, hv, e1], e2, e3, ?_⟩
        rw [e4]; simp [List.filter_cons, hv]

theorem processFiles_spec (st : UploaderState) (fs : List UFile) :
    (processFiles st fs).images =
      st.images ++
        ((fs.take ((st.maxImages : Int) - (st.images.length : Int)).toNat).filter
          validFile) ∧
    (processFiles st fs).maxImages = st.maxImages ∧
    ((processFiles st fs).images ≠ st.images ++ fs →
      st.errorEvents.length < (processFiles st fs).errorEvents.length) := by
  obtain ⟨e1, e2, e3, e4⟩ :=
    validateFiles_spec (fs.take (st.maxImages - st.images.length))
      { st with error := none }
  simp only at e2 e3 e4
  simp only [processFiles, Int.toNat_sub]
  by_cases hneg : (st.maxImages : Int) - (st.images.length : Int) ≤ 0
  · rw [if_pos hneg]
    have h0 : st.maxImages - st.images.length = 0 := by omega
    refine ⟨by simp [h0], rfl, ?_⟩
    intro _
    simp only [List.length_append, List.length_singleton]
    omega
  · rw [if_neg hneg]
    have hpos : 0 < st.maxImages - st.images.length := by omega
    by_cases hemp :
        (validateFiles { st with error := none }
          (fs.take (st.maxImages - st.images.length))).1 = []
    · rw [if_pos hemp]
      have hfil :
          (fs.take (st.maxImages - st.images.length)).filter validFile = [] := by
        rw [← e1]; exact hemp
      refine ⟨by rw [e2, hfil]; simp, e3, ?_⟩
      intro hne
      rw [e2] at hne
      have hfs : fs ≠ [] := by
        intro h; rw [h] at hne; simp at hne
      have hfsl : 0 < fs.length := List.length_pos.mpr hfs
      have htk : fs.take (st.maxImages - st.images.length) ≠ [] := by
        intro h
        have hl := congrArg List.length h
        rw [List.length_take] at hl
        simp only [List.length_nil] at hl
        omega
      obtain ⟨a, ha⟩ := List.exists_mem_of_ne_nil _ htk
      have hainv : validFile a = false := by
        have := List.filter_eq_nil_iff.mp hfil a ha
        revert this; cases validFile a <;> simp
      have hmem :
          a ∈ (fs.take (st.maxImages - st.images.length)).filter
              (fun f => !validFile f) :=
        List.mem_filter.mpr ⟨ha, by simp [hainv]⟩
      rw [e4]
      have hlen : 0 < (List.filter (fun f => !validFile f)
          (List.take (st.maxImages - st.images.length) fs)).length :=
        List.length_pos.mpr (List.ne_nil_of_mem hmem)
      omega
    · rw [if_neg hemp]
      by_cases htr :
          (st.maxImages : Int) - (st.images.length : Int) < (fs.length : Int)
      · rw [if_pos htr]
        refine ⟨by simp [e1, e2], by simp [e3], ?_⟩
        intro _
        simp only [List.length_append, List.length_singleton, e4]
        omega
      · rw [if_neg htr]
        refine ⟨by simp [e1, e2], by simp [e3], ?_⟩
        intro hne
        simp only [e1, e2] at hne
        have hle : fs.length ≤ st.maxImages - st.images.length := by omega
        rw [List.take_of_length_le hle] at hne
        rw [e4, List.take_of_length_le hle]
        by_cases hall : fs.filter (fun f => !validFile f) = []
        · exfalso
          have hv : ∀ a ∈ fs, validFile a = true := by
            intro a ha
            have := List.filter_eq_nil_iff.mp hall a ha
            revert this; cases validFile a <;> simp
          have hself : fs.filter validFile = fs := List.filter_eq_self.mpr hv
          rw [hself] at hne
          exact hne rfl
        · have hlen := List.length_pos.mpr hall
          omega

theorem processFiles_inv (st : UploaderState) (fs : List UFile)
    (h : UploaderInv st) : UploaderInv (processFiles st fs) := by
  obtain ⟨hl, hv⟩ := h
  obtain ⟨e1, e2, _⟩ := processFiles_spec st fs
  constructor
  · rw [e1, e2, List.length_append]
    have h1 := List.length_filter_le validFile
      (fs.take ((st.maxImages : Int) - (st.images.length : Int)).toNat)
    have h2 := List.length_take_le
      ((st.maxImages : Int) - (st.images.length : Int)).toNat fs
    simp only [Int.toNat_sub] at h1 h2 ⊢
    omega
  · rw [e1]
    intro f hf
    rcases List.mem_append.mp hf with hfl | hfr
    · exact hv f hfl
    · exact (List.mem_filter.mp hfr).2

theorem removeImage_inv (st : UploaderState) (i : Nat) (h : UploaderInv st) :
    UploaderInv (removeImage st i) := by
  obtain ⟨hl, hv⟩ := h
  unfold removeImage
  split
  · refine ⟨?_, ?_⟩
    · have := List.length_eraseIdx_le st.images i
      simpa using le_trans this hl
    · intro f hf
      exact hv f (List.eraseIdx_subset _ _ hf)
  · exact ⟨hl, hv⟩

theorem uploaderStep_inv (st : UploaderState) (op : UploadOp)
    (h : UploaderInv st) : UploaderInv (uploaderStep st op) := by
  cases op with
  | add fs => exact processFiles_inv st fs h
  | remove i => exact removeImage_inv st i h

theorem uploaderStep_max (st : UploaderState) (op : UploadOp) :
    (uploaderStep st op).maxImages = st.maxImages := by
  cases op with
  | add fs => exact (processFiles_spec st fs).2.1
  | remove i =>
      show (removeImage st i).maxImages = st.maxImages
      unfold removeImage
      split <;> rfl

theorem foldl_uploaderStep_inv (ops : List UploadOp) (st : UploaderState)
    (h : UploaderInv st) :
    UploaderInv (ops.foldl uploaderStep st) ∧
      (ops.foldl uploaderStep st).maxImages = st.maxImages := by
  induction ops generalizing st with
  | nil => exact ⟨h, rfl⟩
  | cons op rest ih =>
      obtain ⟨i1, i2⟩ := ih (uploaderStep st op) (uploaderStep_inv st op h)
      exact ⟨i1, i2.trans (uploaderStep_max st op)⟩

/-- C10: after any sequence of file additions and removals, the stored
list never exceeds `maxImages` (default 10) and every stored file has an
accepted MIME type (`image/png`, `image/jpeg`, `image/webp`) and size at
most 10 MB; a `processFiles` call adds exactly the valid members of the
remaining-capacity prefix of its input, and whenever some submitted file
is not added (beyond capacity or failing validation) an `error` event is
emitted. -/
theorem uploader_invariant (m : Nat) (ops : List UploadOp) (st : UploaderState)
    (fs : List UFile) :
    (runUploader m ops).images.length ≤ m ∧
    (runUploader m ops).images.all validFile = true ∧
    (processFiles st fs).images =
      st.images ++
        ((fs.take ((st.maxImages : Int) - (st.images.length : Int)).toNat).filter
          validFile) ∧
    ((processFiles st fs).images ≠ st.images ++ fs →
      st.errorEvents.length < (processFiles st fs).errorEvents.length) ∧
    defaultMaxImages = 10 := by
  have base : UploaderInv (initUploader m) := by
    constructor <;> simp [initUploader]
  obtain ⟨⟨hlen, hval⟩, hmax⟩ := foldl_uploaderStep_inv ops (initUploader m) base
  obtain ⟨p1, _, p3⟩ := processFiles_spec st fs
  refine ⟨?_, ?_, p1, p3, rfl⟩
  · calc (runUploader m ops).images.length ≤ (runUploader m ops).maxImages := hlen
      _ = m := hmax
  · exact List.all_eq_true.mpr hval

theorem uploader_invariant_witness :
    (runUploader defaultMaxImages uploadOpsEx).images.length ≤ defaultMaxImages ∧
    (runUploader defaultMaxImages uploadOpsEx).images.all validFile = true ∧
    (initUploader 1).errorEvents.length <
      (processFiles (initUploader 1) [fPng, fTxt]).errorEvents.length :=
  ⟨(uploader_invariant defaultMaxImages uploadOpsEx (initUploader 1) [fPng, fTxt]).1,
   (uploader_invariant defaultMaxImages uploadOpsEx (initUploader 1) [fPng, fTxt]).2.1,
   (uploader_invariant defaultMaxImages uploadOpsEx (initUploader 1)
     [fPng, fTxt]).2.2.2.1 (by decide)⟩
